import Mathlib

/-!
Verification of the hardware-key wallet driver (src/index.js).

The development is a shallow embedding of the driver:
- inbound HID packets are byte lists; the constructor's data dispatch
  (src/index.js:51-69) becomes a decoder into an event type;
- each Command Channel operation (createKey, sign, listAccounts) becomes a
  function from the inbound packet stream to the value its promise resolves
  with (or an explicit crash/hang marker where the JS callback throws or the
  promise never settles);
- JS strings (hex addresses) are lists of ASCII byte values, so that
  toLowerCase and hex rendering are explicit byte functions;
- bn.js arithmetic on 256-bit values is Nat arithmetic;
- the Wallet layer (getAddressIndex, sign, deleteAddress) is embedded with
  its state (the cached account list) passed and returned explicitly, and
  external collaborators (keccak digesting, ecrecover, checksum casing) as
  function parameters.
-/

/-- Byte-level model of JS String.prototype.toLowerCase restricted to ASCII,
which is the only alphabet that occurs here (0x-prefixed hex addresses):
bytes 65..90 (A..Z) map to 97..122 (a..z), all others are unchanged.
Used by Wallet.getAddressIndex (src/index.js:208). -/
def toLowerCase (s : List Nat) : List Nat :=
  s.map (fun c => if 65 ≤ c ∧ c ≤ 90 then c + 32 else c)

/-- One hex digit as its ASCII byte, lowercase (as Buffer.toString produces):
0..9 render as 48..57, 10..15 as 97..102. -/
def hexDigitChar (d : Nat) : Nat :=
  if d < 10 then 48 + d else 87 + d

/-- Hex rendering of a byte list, two lowercase digits per byte
(Buffer.prototype.toString with encoding hex). -/
def hexOfBytes (bytes : List Nat) : List Nat :=
  bytes.flatMap (fun b => [hexDigitChar (b / 16), hexDigitChar (b % 16)])

/-- The address string built throughout src/index.js from 20 raw bytes:
the two ASCII characters 0 (48) and x (120) followed by the lowercase hex
rendering (src/index.js:76 and 160). -/
def hexAddr (bytes : List Nat) : List Nat :=
  48 :: 120 :: hexOfBytes bytes

/-- secp256k1 group order N (src/index.js:19). -/
def secp256k1N : Nat :=
  0xfffffffffffffffffffffffffffffffebaaedce6af48a03bbfd25e8cd0364141

/-- N div 2, as computed by secp256k1N.div(new BN(2)) (src/index.js:20). -/
def secp256k1halfN : Nat := secp256k1N / 2

/-- A directory entry produced by Key.listAccounts (src/index.js:163-166):
a slot index byte and the address string (modelled as ASCII bytes). -/
structure Account where
  index : Nat
  address : List Nat
deriving DecidableEq, Repr

/-- The errors the Wallet layer can raise: the explicit
new Error(\x27Account not found\x27) of getAddressIndex (src/index.js:211),
and the JS ReferenceError raised when an unbound identifier is read
(deleteAddress, src/index.js:199). -/
inductive WError where
  | accountNotFound
  | referenceError
deriving DecidableEq, Repr

/-- Outcome of a Wallet operation: a value, or a thrown error. -/
inductive WRes (α : Type) where
  | ok (value : α)
  | error (e : WError)
deriving DecidableEq, Repr

/-- The events the Key constructor emits on inbound data
(src/index.js:51-69), each carrying data.slice(1). -/
inductive Event where
  | keyCreated (payload : List Nat)
  | dumpKeys (payload : List Nat)
  | signRes (payload : List Nat)
  | done
deriving DecidableEq, Repr

/-- The switch on data[0] in the Key constructor (src/index.js:52-68):
response codes KEY_CREATED = 1, DUMP_KEYS = 2, SIGN = 3, DONE = 0xFF
(src/index.js:34-39); any other tag is ignored (no emission), and an
empty packet reads data[0] as undefined, matching no case. -/
def decodePacket (data : List Nat) : Option Event :=
  match data with
  | [] => none
  | tag :: rest =>
    if tag = 1 then some (Event.keyCreated rest)
    else if tag = 2 then some (Event.dumpKeys rest)
    else if tag = 3 then some (Event.signRes rest)
    else if tag = 0xFF then some Event.done
    else none

/-- The event stream an operation observes, given the raw inbound packets in
arrival order. -/
def eventsOf (raw : List (List Nat)) : List Event :=
  raw.filterMap decodePacket

/-- Payload of a key-created event, none for any other event. -/
def keyCreatedPayload : Event → Option (List Nat)
  | Event.keyCreated p => some p
  | _ => none

/-- Payload of a dump-keys event, none for any other event. -/
def dumpKeysPayload : Event → Option (List Nat)
  | Event.dumpKeys p => some p
  | _ => none

/-- Payload of a sign event, none for any other event. -/
def signResPayload : Event → Option (List Nat)
  | Event.signRes p => some p
  | _ => none

/-- The events observed strictly before the first done event; none when no
done event ever arrives, in which case every operation's promise stays
pending forever (each operation resolves from a once-done handler). -/
def takeUntilDone : List Event → Option (List Event)
  | [] => none
  | Event.done :: _ => some []
  | e :: rest => (takeUntilDone rest).map (fun tl => e :: tl)

/-- Key.createKey (src/index.js:72-88): a once handler keeps the address of
the FIRST key-created event (rendered as the hex string of the first 20
payload bytes, src/index.js:76), the once-done handler resolves with it,
or with null (modelled none) when no key-created event was observed. -/
def createKeyRun (raw : List (List Nat)) : Option (Option (List Nat)) :=
  (takeUntilDone (eventsOf raw)).map
    (fun pre =>
      ((pre.filterMap keyCreatedPayload).head?).map
        (fun p => hexAddr (p.take 20)))

/-- What Key.sign's done handler produces. -/
inductive SignOutcome where
  | resolved (sig : List Nat)
  | crashed
deriving DecidableEq, Repr

/-- The done handler of Key.sign (src/index.js:113-122): with at least two
accumulated sign payloads it resolves Buffer.concat of res[0].slice(0,32)
and res[1].slice(0,32) (any further payloads are silently ignored); with
fewer, res[0] or res[1] is undefined and .slice throws a TypeError inside
the event handler (crashed), so the promise is never settled. -/
def signDone (res : List (List Nat)) : SignOutcome :=
  match res with
  | p1 :: p2 :: _ => SignOutcome.resolved (p1.take 32 ++ p2.take 32)
  | _ => SignOutcome.crashed

/-- Key.sign (src/index.js:104-134): an on handler accumulates the payloads
of all sign events, in arrival order, until the first done event, then the
done handler runs; none when done never arrives (pending forever). -/
def keySignRun (raw : List (List Nat)) : Option SignOutcome :=
  (takeUntilDone (eventsOf raw)).map
    (fun pre => signDone (pre.filterMap signResPayload))

/-- The per-packet scan of Key.listAccounts' done handler
(src/index.js:150-168): read one index byte; the sentinel 0xFF stops the
scan of this packet (the JS return exits the forEach callback); otherwise
the next 20 bytes render as the address string and scanning continues. -/
def scanPacket : List Nat → List Account
  | [] => []
  | i :: rest =>
    if i = 0xFF then []
    else ⟨i, hexAddr (rest.take 20)⟩ :: scanPacket (rest.drop 20)
termination_by l => l.length
decreasing_by simp; omega

/-- The done handler of Key.listAccounts (src/index.js:145-171): the shared
addresses array is filled by pushing, packet after packet in arrival
order, the entries scanned from each accumulated dump-keys payload. -/
def listAccountsHandler (res : List (List Nat)) : List Account :=
  res.foldl (fun acc buff => acc ++ scanPacket buff) []

/-- Key.listAccounts (src/index.js:136-177): accumulate the payloads of all
dump-keys events until the first done event, then resolve with the scanned
entries; none when done never arrives. -/
def listAccountsRun (raw : List (List Nat)) : Option (List Account) :=
  (takeUntilDone (eventsOf raw)).map
    (fun pre => listAccountsHandler (pre.filterMap dumpKeysPayload))

/-- The Array.prototype.find call of Wallet.getAddressIndex
(src/index.js:209) with its literal predicate account.address = address:
an ASSIGNMENT, not a comparison. Visiting an account overwrites its
address with addr and the predicate's value is addr itself, which is
truthy exactly when the string is non-empty; so for a non-empty addr the
find stops at the first account (now mutated), and for the empty string it
visits (and mutates) every account and finds nothing. Returns the updated
account list and the account found. -/
def findAssign (addr : List Nat) : List Account → List Account × Option Account
  | [] => ([], none)
  | a :: rest =>
    if addr ≠ [] then
      ({ a with address := addr } :: rest, some { a with address := addr })
    else
      ({ a with address := addr } :: (findAssign addr rest).1,
        (findAssign addr rest).2)

/-- Wallet.getAddressIndex (src/index.js:207-214): lowercase the query, run
the find (with its assignment defect), throw Account not found when the
find produced nothing, else return the found account's index. The updated
account list is returned alongside, since the find mutates the cache. -/
def getAddressIndex (accounts : List Account) (address : List Nat) :
    List Account × WRes Nat :=
  match findAssign (toLowerCase address) accounts with
  | (accounts2, none) => (accounts2, WRes.error WError.accountNotFound)
  | (accounts2, some account) => (accounts2, WRes.ok account.index)

/-- ethereumjs setLengthLeft as used in src/index.js:223 and 238: left-pad
with zero bytes up to n; a list already of length at least n is returned
unchanged (here it is always exactly 32 bytes). -/
def setLengthLeft (l : List Nat) (n : Nat) : List Nat :=
  if l.length < n then List.replicate (n - l.length) 0 ++ l else l

/-- new BN(s.toString(hex), 16) (src/index.js:232): the big-endian value of
a byte list. -/
def beBytesToNat (l : List Nat) : Nat :=
  l.foldl (fun acc b => acc * 256 + b) 0

/-- The EIP-2 low-s step of Wallet.sign (src/index.js:232-236): when the
s value exceeds N div 2 it is replaced by N minus s, else kept. -/
def normalizeS (s : Nat) : Nat :=
  if secp256k1halfN < s then secp256k1N - s else s

/-- The recovery-id resolution of Wallet.sign (src/index.js:245-255),
with the external collaborators abstracted: checksum is
ethers.utils.getAddress (checksum normalization) and recoverAddr v is the
address derived from ecrecover at recovery id v on the fixed digest and
(r, s). The code sets v to 27, compares the checksummed target with the
checksummed recovered address, and on mismatch sets v to 28 and recovers
again WITHOUT comparing a second time: the returned v is 28 whenever 27
failed, checked or not. -/
def resolveRecoveryId (checksum : List Nat → List Nat)
    (recoverAddr : Nat → List Nat) (target : List Nat) : Nat :=
  if checksum target ≠ checksum (recoverAddr 27) then 28 else 27

/-- Wallet.sign (src/index.js:216-264) from the device's raw 64-byte
signature onward: look the target up in the directory (propagating its
throw and its mutation of the cache), split the raw signature into r
(bytes 0..31, left-padded) and s (big-endian value of bytes 32..63),
normalize s, resolve v, and return (r, s value, v). The s value is carried
as a Nat: the source's toBuffer plus setLengthLeft re-padding is
value-preserving. The digest and transaction serialization are external
collaborators folded into recoverAddr. No error path exists after the
lookup: the result always carries whatever v resolution produced. -/
def walletSign (accounts : List Account) (target : List Nat)
    (rawSig : List Nat) (checksum : List Nat → List Nat)
    (recoverAddr : Nat → List Nat) :
    List Account × WRes (List Nat × Nat × Nat) :=
  match getAddressIndex accounts target with
  | (accounts2, WRes.error e) => (accounts2, WRes.error e)
  | (accounts2, WRes.ok _index) =>
    (accounts2,
      WRes.ok (setLengthLeft (rawSig.take 32) 32,
        normalizeS (beBytesToNat ((rawSig.drop 32).take 32)),
        resolveRecoveryId checksum recoverAddr target))

/-- A command written to the device by the Wallet layer. -/
inductive DeviceCmd where
  | deleteKeyCmd (index : Nat)
deriving DecidableEq, Repr

/-- JS identifier resolution in a scope modelled as name-value pairs. -/
def lookupVar (scope : List (String × List Nat)) (name : String) :
    Option (List Nat) :=
  match scope with
  | [] => none
  | (n, v) :: rest => if n = name then some v else lookupVar rest name

/-- Wallet.deleteAddress (src/index.js:198-201). Its body reads the free
identifier address, but the method declares no parameter and binds no
local, and no enclosing scope of src/index.js binds address either, so
the scope in which the identifier is resolved is empty and JS evaluation
throws ReferenceError before this.device.deleteKey is reached. The scope
is passed explicitly; the returned command list records what was written
to the device. -/
def deleteAddressRun (scope : List (String × List Nat))
    (accounts : List Account) : List DeviceCmd × WRes Unit :=
  match lookupVar scope "address" with
  | none => ([], WRes.error WError.referenceError)
  | some address =>
    match getAddressIndex accounts address with
    | (_, WRes.error e) => ([], WRes.error e)
    | (_, WRes.ok index) => ([DeviceCmd.deleteKeyCmd index], WRes.ok ())

/-- Concrete 20-byte device addresses and packet junk used by witnesses. -/
def wBytesA : List Nat := List.replicate 20 0xAA

def wBytesB : List Nat := List.replicate 20 0xBB

def wJunk : List Nat := List.replicate 41 0

def sigP1 : List Nat := List.replicate 63 7

def sigP2 : List Nat := List.replicate 63 8

def sigP3 : List Nat := List.replicate 63 9

def kcPayload : List Nat := List.replicate 63 5

/-- The directory entry cached for the lookup counterexample. -/
def dirAddr : List Nat := hexAddr wBytesA

/-- An ASCII query address 0xBB...B (uppercase B equals byte 66) that
matches no cached account, even case-insensitively. -/
def queryAddr : List Nat := 48 :: 120 :: List.replicate 40 66

/-- A recovery collaborator that returns an address matching nothing,
for the signing-integrity counterexample. -/
def badRecoverAddr : Nat → List Nat := fun _ => [1]

/-- The target address handed to walletSign in the signing-integrity
counterexample (a single lowercase ASCII byte, t). -/
def targetAddr : List Nat := [116]

-- Helper lemmas (shared; none of them is a claim theorem).

theorem normS_le (s : Nat) (h : s < secp256k1N) :
    normalizeS s ≤ secp256k1halfN := by
  have hN : secp256k1N = 2 * secp256k1halfN + 1 := by decide
  unfold normalizeS
  split <;> omega

theorem normS_fix (t : Nat) (h : t ≤ secp256k1halfN) :
    normalizeS t = t := by
  unfold normalizeS
  rw [if_neg (Nat.not_lt.mpr h)]

/-- Claim C4: for every s in the interval from 0 up to the group order N,
the low-s normalization yields N minus s exactly when s exceeds N div 2
and s itself otherwise, hence always a value at most N div 2. -/
theorem normalizeS_range (s : Nat) (h : s < secp256k1N) :
    (secp256k1halfN < s → normalizeS s = secp256k1N - s)
    ∧ (¬ secp256k1halfN < s → normalizeS s = s)
    ∧ normalizeS s ≤ secp256k1N / 2 := by
  refine ⟨fun hs => ?_, fun hs => ?_, normS_le s h⟩
  · unfold normalizeS
    rw [if_pos hs]
  · unfold normalizeS
    rw [if_neg hs]

theorem normalizeS_range_witness :
    (secp256k1N - 5 < secp256k1N)
    ∧ ((secp256k1halfN < secp256k1N - 5 →
          normalizeS (secp256k1N - 5) = secp256k1N - (secp256k1N - 5))
      ∧ (¬ secp256k1halfN < secp256k1N - 5 →
          normalizeS (secp256k1N - 5) = secp256k1N - 5)
      ∧ normalizeS (secp256k1N - 5) ≤ secp256k1N / 2) :=
  ⟨by decide, normalizeS_range (secp256k1N - 5) (by decide)⟩

/-- Claim C5: the low-s normalization is idempotent on the interval from 0
up to the group order N. -/
theorem normalizeS_idempotent (s : Nat) (h : s < secp256k1N) :
    normalizeS (normalizeS s) = normalizeS s :=
  normS_fix (normalizeS s) (normS_le s h)

theorem normalizeS_idempotent_witness :
    (secp256k1N - 5 < secp256k1N)
    ∧ normalizeS (normalizeS (secp256k1N - 5)) = normalizeS (secp256k1N - 5) :=
  ⟨by decide, normalizeS_idempotent (secp256k1N - 5) (by decide)⟩

/-- Claim C7: with exactly two sign response packets accumulated before the
first done event, Key.sign resolves with the 64-byte concatenation of the
first 32 bytes of the first packet and the first 32 bytes of the second. -/
theorem keySign_happy_path (raw : List (List Nat)) (pre : List Event)
    (p1 p2 : List Nat)
    (hpre : takeUntilDone (eventsOf raw) = some pre)
    (hsig : pre.filterMap signResPayload = [p1, p2])
    (h1 : 32 ≤ p1.length) (h2 : 32 ≤ p2.length) :
    keySignRun raw = some (SignOutcome.resolved (p1.take 32 ++ p2.take 32))
    ∧ (p1.take 32 ++ p2.take 32).length = 64 := by
  constructor
  · simp [keySignRun, hpre, hsig, signDone]
  · simp only [List.length_append, List.length_take]
    omega

theorem keySign_happy_path_witness :
    (takeUntilDone (eventsOf [3 :: sigP1, 3 :: sigP2, [0xFF]])
        = some [Event.signRes sigP1, Event.signRes sigP2])
    ∧ ([Event.signRes sigP1, Event.signRes sigP2].filterMap signResPayload
        = [sigP1, sigP2])
    ∧ (32 ≤ sigP1.length)
    ∧ (32 ≤ sigP2.length)
    ∧ (keySignRun [3 :: sigP1, 3 :: sigP2, [0xFF]]
          = some (SignOutcome.resolved (sigP1.take 32 ++ sigP2.take 32))
        ∧ (sigP1.take 32 ++ sigP2.take 32).length = 64) :=
  ⟨by decide, by decide, by decide, by decide,
    keySign_happy_path [3 :: sigP1, 3 :: sigP2, [0xFF]]
      [Event.signRes sigP1, Event.signRes sigP2] sigP1 sigP2
      (by decide) (by decide) (by decide) (by decide)⟩

/-- Claim C3 (code divergence, evaluated at the failing inputs): with zero
or one sign response packets before done, Key.sign does not reject with a
protocol error: the done handler throws a TypeError on the undefined
res[1] (or res[0]) and the promise never settles; with three packets it
does not fail at all but resolves, silently ignoring the third. -/
theorem keySign_count_mismatch_behavior :
    (keySignRun [[0xFF]] = some SignOutcome.crashed)
    ∧ (keySignRun [3 :: sigP1, [0xFF]] = some SignOutcome.crashed)
    ∧ (keySignRun [3 :: sigP1, 3 :: sigP2, 3 :: sigP3, [0xFF]]
        = some (SignOutcome.resolved
            ((List.replicate 63 7).take 32 ++ (List.replicate 63 8).take 32))) :=
  ⟨by decide, by decide, by decide⟩

/-- Claim C8: Key.createKey resolves with the hex address of the first 20
payload bytes of the first key-created response observed before done, and
resolves with null (none) when no key-created response was observed,
rather than throwing. -/
theorem createKey_first_key_created (raw : List (List Nat))
    (pre : List Event)
    (hpre : takeUntilDone (eventsOf raw) = some pre) :
    (∀ p rest, pre.filterMap keyCreatedPayload = p :: rest →
        createKeyRun raw = some (some (hexAddr (p.take 20))))
    ∧ (pre.filterMap keyCreatedPayload = [] →
        createKeyRun raw = some none) := by
  constructor
  · intro p rest hp
    unfold createKeyRun
    rw [hpre, Option.map_some', hp]
    rfl
  · intro hp
    unfold createKeyRun
    rw [hpre, Option.map_some', hp]
    rfl

theorem createKey_first_key_created_witness :
    (takeUntilDone (eventsOf [1 :: kcPayload, [0xFF]])
        = some [Event.keyCreated kcPayload])
    ∧ (createKeyRun [1 :: kcPayload, [0xFF]]
        = some (some (hexAddr (kcPayload.take 20)))) :=
  ⟨by decide,
    (createKey_first_key_created [1 :: kcPayload, [0xFF]]
        [Event.keyCreated kcPayload] (by decide)).1
      kcPayload [] (by decide)⟩

theorem scanPacket_sentinel (junk : List Nat) :
    scanPacket (0xFF :: junk) = [] := by
  unfold scanPacket
  simp

theorem scanPacket_entry (i : Nat) (rest : List Nat) (h : i ≠ 0xFF) :
    scanPacket (i :: rest)
      = ⟨i, hexAddr (rest.take 20)⟩ :: scanPacket (rest.drop 20) := by
  rw [scanPacket.eq_2, if_neg h]

theorem scanPacket_entry_ff (i : Nat) (a junk : List Nat) (hi : i ≠ 0xFF)
    (ha : a.length = 20) :
    scanPacket (i :: (a ++ 0xFF :: junk)) = [⟨i, hexAddr a⟩] := by
  rw [scanPacket_entry i _ hi, List.take_left' ha, List.drop_left' ha,
    scanPacket_sentinel]

theorem listAccountsHandler_go (l : List (List Nat)) (init : List Account) :
    l.foldl (fun acc buff => acc ++ scanPacket buff) init
      = init ++ (l.map scanPacket).flatten := by
  induction l generalizing init with
  | nil => simp
  | cons b rest ih => simp [List.foldl_cons, ih]

theorem listAccountsHandler_join (l : List (List Nat)) :
    listAccountsHandler l = (l.map scanPacket).flatten := by
  unfold listAccountsHandler
  rw [listAccountsHandler_go]
  simp

/-- Claim C6: the done handler of listAccounts scans each accumulated
packet left to right as one index byte plus 20 address bytes per entry,
the sentinel 0xFF ends only the current packet, and the result is the
concatenation of the per-packet scans in arrival order; in particular two
dump-keys packets holding one entry each (1, A) and (2, B), each closed by
the sentinel, followed by done, yield exactly those two accounts in
order. -/
theorem listAccounts_reassembly (a b j1 j2 : List Nat)
    (ha : a.length = 20) (hb : b.length = 20) :
    (listAccountsRun
        [2 :: (1 :: (a ++ 0xFF :: j1)), 2 :: (2 :: (b ++ 0xFF :: j2)), [0xFF]]
      = some [⟨1, hexAddr a⟩, ⟨2, hexAddr b⟩])
    ∧ (∀ packets : List (List Nat),
        listAccountsHandler packets = (packets.map scanPacket).flatten)
    ∧ (∀ junk : List Nat, scanPacket (0xFF :: junk) = [])
    ∧ (∀ i rest, i ≠ 0xFF →
        scanPacket (i :: rest)
          = ⟨i, hexAddr (rest.take 20)⟩ :: scanPacket (rest.drop 20)) := by
  refine ⟨?_, listAccountsHandler_join, scanPacket_sentinel, scanPacket_entry⟩
  unfold listAccountsRun
  have hev : eventsOf
      [2 :: (1 :: (a ++ 0xFF :: j1)), 2 :: (2 :: (b ++ 0xFF :: j2)), [0xFF]]
      = [Event.dumpKeys (1 :: (a ++ 0xFF :: j1)),
         Event.dumpKeys (2 :: (b ++ 0xFF :: j2)), Event.done] := by
    simp [eventsOf, decodePacket]
  rw [hev]
  have htd : takeUntilDone [Event.dumpKeys (1 :: (a ++ 0xFF :: j1)),
      Event.dumpKeys (2 :: (b ++ 0xFF :: j2)), Event.done]
      = some [Event.dumpKeys (1 :: (a ++ 0xFF :: j1)),
              Event.dumpKeys (2 :: (b ++ 0xFF :: j2))] := by
    simp [takeUntilDone]
  rw [htd, Option.map_some']
  have hfm : ([Event.dumpKeys (1 :: (a ++ 0xFF :: j1)),
      Event.dumpKeys (2 :: (b ++ 0xFF :: j2))].filterMap dumpKeysPayload)
      = [1 :: (a ++ 0xFF :: j1), 2 :: (b ++ 0xFF :: j2)] := by
    simp [dumpKeysPayload]
  rw [hfm, listAccountsHandler_join, List.map_cons, List.map_cons,
    List.map_nil, scanPacket_entry_ff 1 a j1 (by decide) ha,
    scanPacket_entry_ff 2 b j2 (by decide) hb]
  simp

theorem listAccounts_reassembly_witness :
    (wBytesA.length = 20)
    ∧ (wBytesB.length = 20)
    ∧ (listAccountsRun
        [2 :: (1 :: (wBytesA ++ 0xFF :: wJunk)),
         2 :: (2 :: (wBytesB ++ 0xFF :: wJunk)), [0xFF]]
      = some [⟨1, hexAddr wBytesA⟩, ⟨2, hexAddr wBytesB⟩]) :=
  ⟨by decide, by decide,
    (listAccounts_reassembly wBytesA wBytesB wJunk wJunk
      (by decide) (by decide)).1⟩

theorem findAssign_fst_cons (addr : List Nat) (a : Account)
    (rest : List Account) :
    ∃ tail, (findAssign addr (a :: rest)).1
      = { a with address := addr } :: tail := by
  unfold findAssign
  split
  · exact ⟨rest, rfl⟩
  · exact ⟨(findAssign addr rest).1, rfl⟩

theorem getAddressIndex_fst (accounts : List Account) (q : List Nat) :
    (getAddressIndex accounts q).1 = (findAssign (toLowerCase q) accounts).1 := by
  unfold getAddressIndex
  cases h : findAssign (toLowerCase q) accounts with
  | mk l o => cases o <;> simp [h]

/-- Claim C9: looking an address up mutates the cached directory: the find
predicate of getAddressIndex assigns the lowercased query into the address
field of the first visited account, so after any lookup on a non-empty
directory the first account's address equals the lowercased query address,
and whenever it differed beforehand the directory has changed. -/
theorem getAddressIndex_mutates_directory (accounts : List Account)
    (query : List Nat) (h : accounts ≠ []) :
    ((getAddressIndex accounts query).1.head?.map Account.address
        = some (toLowerCase query))
    ∧ (accounts.head?.map Account.address ≠ some (toLowerCase query) →
        (getAddressIndex accounts query).1 ≠ accounts) := by
  match accounts, h with
  | a :: rest, _ =>
    obtain ⟨tail, htail⟩ := findAssign_fst_cons (toLowerCase query) a rest
    have hfst : (getAddressIndex (a :: rest) query).1
        = { a with address := toLowerCase query } :: tail := by
      rw [getAddressIndex_fst, htail]
    constructor
    · rw [hfst]
      rfl
    · intro hne heq
      apply hne
      rw [hfst] at heq
      injection heq with h1 h2
      have h3 : a.address = toLowerCase query := congrArg Account.address h1.symm
      simp [h3]

theorem getAddressIndex_mutates_directory_witness :
    (([⟨0, [120]⟩] : List Account) ≠ [])
    ∧ ((getAddressIndex [⟨0, [120]⟩] [89]).1.head?.map Account.address
        = some (toLowerCase [89]))
    ∧ ((getAddressIndex [⟨0, [120]⟩] [89]).1 ≠ [⟨0, [120]⟩]) :=
  ⟨by decide,
    (getAddressIndex_mutates_directory [⟨0, [120]⟩] [89] (by decide)).1,
    (getAddressIndex_mutates_directory [⟨0, [120]⟩] [89] (by decide)).2
      (by decide)⟩

/-- Claim C1 (code divergence, evaluated at a failing input): with a single
cached account at slot 7 whose address is 0xaa repeated, a query for the
unrelated address 0xBB repeated does not raise the not-found error the
spec requires: the assignment in the find predicate makes the first
account match, so the lookup returns slot 7 (the index of a non-matching
account) and rewrites that account's address to the lowercased query. -/
theorem getAddressIndex_assignment_defect :
    (toLowerCase queryAddr ≠ dirAddr)
    ∧ (getAddressIndex [⟨7, dirAddr⟩] queryAddr
        = ([⟨7, toLowerCase queryAddr⟩], WRes.ok 7)) :=
  ⟨by decide, by decide⟩

/-- Claim C2 (code divergence, evaluated at a failing input): with a
recovery collaborator for which neither candidate recovery id reproduces
the target address, Wallet.sign does not fail with a signing-integrity
error: after the failed comparison at v 27 it adopts v 28 without any
second comparison and returns a successful result carrying v 28. -/
theorem walletSign_accepts_unverified_v :
    (id targetAddr ≠ id (badRecoverAddr 27))
    ∧ (id targetAddr ≠ id (badRecoverAddr 28))
    ∧ (walletSign [⟨3, dirAddr⟩] targetAddr (List.replicate 64 0) id
        badRecoverAddr
      = ([⟨3, toLowerCase targetAddr⟩],
          WRes.ok (List.replicate 32 0, 0, 28))) :=
  ⟨by decide, by decide, by decide⟩

/-- Claim C10: Wallet.deleteAddress resolves the unbound identifier address
in its (empty) scope before anything else, so every call throws
ReferenceError and no DELETE command is ever written to the device,
whatever the cached directory holds. -/
theorem deleteAddress_always_throws (accounts : List Account) :
    deleteAddressRun [] accounts = ([], WRes.error WError.referenceError) :=
  rfl
